import Mathlib

/-!
Verification of the file-utility module `file_operation.py`.

The module is a flat set of wrappers around POSIX file-system calls.  We give a
shallow embedding: Python text is a list of characters, file contents are lists
of byte values, a file system is a finite listing of regular files and
directories, and every fallible operation returns `Except PyError`.  Character
codecs and the JSON parser are external library services, so the embedding is
parametric in them; concrete instances are supplied where a theorem needs to be
evaluated on a closed input.
-/

namespace FileOperation

/-- Python text, modelled as its sequence of characters. -/
abbrev Str := List Char

/-- The Python exceptions the module can surface.  `fileNotFound` is
`FileNotFoundError(errno.ENOENT, strerror, path)` and carries the path slot;
`valueError` is the error `open` raises when a binary mode is combined with an
`encoding` argument; `jsonDecodeError` stands for `json.JSONDecodeError`. -/
inductive PyError where
  | fileNotFound : Str → PyError
  | typeError : PyError
  | valueError : PyError
  | unicodeDecodeError : PyError
  | unicodeEncodeError : PyError
  | jsonDecodeError : PyError
  | sameFileError : PyError
  | isADirectoryError : PyError
  deriving DecidableEq, Repr

/-- A file system: regular files (absolute path, byte content) and the set of
existing directories.  Paths are written without a trailing slash. -/
structure FS where
  files : List (Str × List Nat)
  dirs : List Str
  deriving DecidableEq, Repr

/-- Content of the regular file at `p`, when it exists. -/
def lookupFile (fs : FS) (p : Str) : Option (List Nat) :=
  (fs.files.find? (fun e => e.1 == p)).map (fun e => e.2)

/-- Create or overwrite the regular file at `p`. -/
def setFile (fs : FS) (p : Str) (bs : List Nat) : FS :=
  ⟨(p, bs) :: fs.files.filter (fun e => !(e.1 == p)), fs.dirs⟩

/-- `os.path.isfile`. -/
def isfile (fs : FS) (p : Str) : Bool :=
  (lookupFile fs p).isSome

/-- `os.path.isdir` applied to an actual path string. -/
def isdir (fs : FS) (p : Str) : Bool :=
  fs.dirs.contains p

/-- `os.path.basename` for POSIX paths: the part after the last slash. -/
def basename (p : Str) : Str :=
  (p.reverse.takeWhile (fun c => c != '/')).reverse

/-- `os.path.join` for POSIX paths, restricted to two components. -/
def joinPath (a b : Str) : Str :=
  if b.head? == some '/' then b
  else if a == [] then b
  else if a.getLast? == some '/' then a ++ b
  else a ++ [ '/' ] ++ b

/-- The name of `p` as a direct child of directory `d`, when it is one. -/
def childName (d p : Str) : Option Str :=
  let pre := d ++ [ '/' ]
  if pre.isPrefixOf p then
    let n := p.drop pre.length
    if n == [] || n.contains '/' then none else some n
  else none

/-- `os.scandir`-style listing: the names of the entries (files and
subdirectories) directly inside directory `d`. -/
def listdir (fs : FS) (d : Str) : List Str :=
  (fs.files.map (fun e => e.1) ++ fs.dirs).filterMap (childName d)

/-- `fnmatch` of `n` against the one-star pattern `a*b`, for affixes `a`, `b`
made of literal characters: `n` must be `a ++ m ++ b` for some `m`. -/
def matchOneStar (a b n : Str) : Bool :=
  a.isPrefixOf n && b.isSuffixOf (n.drop a.length)

/-- Whether `glob` selects entry name `n` for the pattern `a*b`: the fnmatch
test plus the hidden-file rule (a name starting with a dot is only matched by a
pattern starting with a dot). -/
def globMatchEntry (a b n : Str) : Bool :=
  matchOneStar a b n && (a.head? == some '.' || !(n.head? == some '.'))

/-- `get_file_list(src_dir, suffix, prefix)`: `glob.glob` of the pattern
`src_dir/suffix*prefix` built by the source's `format` call — the source's
second parameter (named `suffix`) lands in front of the star and its third
parameter (named `prefix`) behind it.  Modelled for affixes that contain no
glob metacharacter and no slash, written `sfx` and `pfx` here.  `glob` yields
nothing when the directory part of the pattern does not name an existing
directory. -/
def get_file_list (fs : FS) (src_dir sfx pfx : Str) : List Str :=
  if isdir fs src_dir then
    ((listdir fs src_dir).filter (fun n => globMatchEntry sfx pfx n)).map
      (fun n => src_dir ++ [ '/' ] ++ n)
  else []

/-- A character codec: encoding to bytes and decoding from bytes, each partial. -/
structure Codec where
  enc : Str → Option (List Nat)
  dec : List Nat → Option Str

/-- A codec acting as the identity on the 7-bit range and failing elsewhere.
Both `utf-8` and `shift_jis` restrict to exactly this map on ASCII text, so it
serves as a concrete faithful instance for closed evaluations. -/
def asciiCodec : Codec :=
  ⟨fun t => if t.all (fun c => c.toNat < 128) then some (t.map Char.toNat) else none,
   fun bs => if bs.all (fun b => b < 128) then some (bs.map Char.ofNat) else none⟩

/-- A codec registry mapping every encoding name to the ASCII codec. -/
def asciiCodecs : Str → Codec := fun _ => asciiCodec

/-- The default of the module-level `__default_encoding__` constant. -/
def sUtf8 : Str := "utf-8".data

/-- Universal-newline translation performed by text-mode reading with
`newline=None`: each `\r\n` pair and each lone `\r` becomes `\n`. -/
def translateNewlines : Str → Str
  | [] => []
  | '\r' :: '\n' :: rest => '\n' :: translateNewlines rest
  | '\r' :: rest => '\n' :: translateNewlines rest
  | c :: rest => c :: translateNewlines rest

/-- `str.split(sep)` for a one-character separator, Python semantics: the empty
string yields one empty field, and `n` separators yield `n + 1` fields. -/
def splitChar (c : Char) : Str → List Str
  | [] => [[]]
  | x :: xs =>
    if x = c then [] :: splitChar c xs
    else
      match splitChar c xs with
      | [] => [[x]]
      | h :: t => (x :: h) :: t

/-- What a Python read returns: `bytes` in binary mode, `str` in text mode. -/
inductive PyContent where
  | bytes : List Nat → PyContent
  | text : Str → PyContent
  deriving DecidableEq, Repr

/-- `open(p, mode).read()` for reading.  CPython validates the argument
combination first: a binary mode together with an `encoding` argument raises
`ValueError` before the path is even touched.  Text mode decodes under the
given encoding (default `utf-8`) and then applies universal-newline
translation. -/
def pyOpenRead (codecs : Str → Codec) (fs : FS) (p : Str) (binary : Bool)
    (encoding : Option Str) : Except PyError PyContent :=
  if binary && encoding.isSome then .error .valueError
  else if isdir fs p then .error .isADirectoryError
  else
    match lookupFile fs p with
    | none => .error (.fileNotFound p)
    | some bs =>
      if binary then .ok (.bytes bs)
      else
        match (codecs (encoding.getD sUtf8)).dec bs with
        | none => .error .unicodeDecodeError
        | some t => .ok (.text (translateNewlines t))

/-- `open(p, mode='w', encoding).write(t)` then close.  On POSIX the
write-side newline translation (`\n` to `os.linesep`) is the identity. -/
def pyOpenWriteText (codecs : Str → Codec) (fs : FS) (p : Str)
    (encoding : Str) (t : Str) : Except PyError FS :=
  if isdir fs p then .error .isADirectoryError
  else
    match (codecs encoding).enc t with
    | none => .error .unicodeEncodeError
    | some bs => .ok (setFile fs p bs)

/-- `read_file(filepath, encoding, is_binary)`: a single `open(...).read()`.
The source passes `encoding=encoding` to `open` in both modes. -/
def read_file (codecs : Str → Codec) (fs : FS) (filepath : Str)
    (encoding : Str) (is_binary : Bool) : Except PyError PyContent :=
  pyOpenRead codecs fs filepath is_binary (some encoding)

/-- `read_json_file(filepath, encoding)`:
`json.loads(read_file(filepath, encoding=encoding))`, with `json.loads` an
external library function, taken as a parameter. -/
def read_json_file {J : Type} (jsonLoads : PyContent → Except PyError J)
    (codecs : Str → Codec) (fs : FS) (filepath encoding : Str) :
    Except PyError J :=
  match read_file codecs fs filepath encoding false with
  | .error e => .error e
  | .ok c => jsonLoads c

/-- The `.split('\n')` step of `read_file_lines`; on a `bytes` receiver Python
would reject the `str` separator with `TypeError`. -/
def pySplitNlStep : PyContent → Except PyError (List Str)
  | .text t => .ok (splitChar '\n' t)
  | .bytes _ => .error .typeError

/-- `read_file_lines(filepath, encoding)`: text read, then `.split('\n')`. -/
def read_file_lines (codecs : Str → Codec) (fs : FS)
    (filepath encoding : Str) : Except PyError (List Str) :=
  match read_file codecs fs filepath encoding false with
  | .error e => .error e
  | .ok c => pySplitNlStep c

/-- `shutil.copyfile(src, dst)`: same-path check, then byte copy; a missing
`src` surfaces as `FileNotFoundError(src)` when its read side is opened. -/
def pyCopyfile (fs : FS) (src dst : Str) : Except PyError FS :=
  if src == dst && (isfile fs src || isdir fs src) then .error .sameFileError
  else if isdir fs src then .error .isADirectoryError
  else
    match lookupFile fs src with
    | none => .error (.fileNotFound src)
    | some bs =>
      if isdir fs dst then .error .isADirectoryError
      else .ok (setFile fs dst bs)

/-- `copy_file(src, dest)`: when `os.path.basename(dest)` is truthy (non-empty)
the destination is rewritten to `os.path.join(dest, os.path.basename(src))`,
then `shutil.copyfile` runs. -/
def copy_file (fs : FS) (src dest : Str) : Except PyError FS :=
  pyCopyfile fs src
    (if (basename dest).isEmpty then dest else joinPath dest (basename src))

/-- Python `enumerate`, carrying the running index. -/
def pyEnumerate : Nat → List Str → List (Nat × Str)
  | _, [] => []
  | i, x :: xs => (i, x) :: pyEnumerate (i + 1) xs

/-- The comprehension `[l.pop(i) for i in idxs]`, threading the mutation of the
list: each step removes position `i` from the current list and records the
removed element. -/
def popLoop : List Str → List Nat → List Str × List Str
  | l, [] => (l, [])
  | l, i :: is =>
    let r := popLoop (l.eraseIdx i) is
    (r.1, l.getD i [] :: r.2)

/-- The indices, in ascending order, of the entries of `l` that are not
existing files (`none_file_idx_list` of the source). -/
def noneFileIdx (fs : FS) (l : List Str) : List Nat :=
  ((pyEnumerate 0 l).filter (fun e => !isfile fs e.2)).map (fun e => e.1)

/-- `__pop_none_file_paths__(file_path_list)`: collect the indices of the
missing entries, reverse them, pop each from the list, and reverse the popped
elements back into ascending order.  Returns the mutated list together with
the returned list of missing paths. -/
def pop_none_file_paths (fs : FS) (l : List Str) : List Str × List Str :=
  let r := popLoop l (noneFileIdx fs l).reverse
  (r.1, r.2.reverse)

/-- The kinds of value the source hands to `os.path.isdir`: a path string, or
— as the source's `__validate_path_dir__` actually does — the builtin `str`
class object itself. -/
inductive PyPathArg where
  | pathStr : Str → PyPathArg
  | strType : PyPathArg
  deriving DecidableEq, Repr

/-- `os.path.isdir` on an arbitrary argument.  `genericpath.isdir` calls
`os.stat` and catches only `OSError` and `ValueError`; `os.stat` on an object
that is not path-like raises `TypeError`, which therefore escapes. -/
def os_path_isdir (fs : FS) : PyPathArg → Except PyError Bool
  | .pathStr p => .ok (isdir fs p)
  | .strType => .error .typeError

/-- `__validate_path_dir__(path)` as written: it tests
`os.path.isdir(str)` — the builtin `str` class, not the `path` argument —
and raises `FileNotFoundError(path)` when the test is falsy. -/
def validate_path_dir (fs : FS) (path : Str) : Except PyError Unit :=
  match os_path_isdir fs .strType with
  | .error e => .error e
  | .ok b => if b then .ok () else .error (.fileNotFound path)

/-- Modelled from the spec: the Design Note demands the validation be repaired
to test the actual directory argument; this is `__validate_path_dir__` with
`os.path.isdir(path)` in place of `os.path.isdir(str)`. -/
def validate_path_dir_fixed (fs : FS) (path : Str) : Except PyError Unit :=
  match os_path_isdir fs (.pathStr path) with
  | .error e => .error e
  | .ok b => if b then .ok () else .error (.fileNotFound path)

/-- A heap of Python list objects; an address is an index, allocation appends. -/
abbrev Heap := List (List Str)

/-- The copy loop of `copy_files`: each remaining source is copied by
`shutil.copyfile(src, os.path.join(dest_dir, os.path.basename(src)))`. -/
def copyLoop (dest_dir : Str) : FS → List Str → Except PyError FS
  | fs, [] => .ok fs
  | fs, s :: ss =>
    match pyCopyfile fs s (joinPath dest_dir (basename s)) with
    | .error e => .error e
    | .ok fs2 => copyLoop dest_dir fs2 ss

/-- `', '.join(paths)`. -/
def joinComma (l : List Str) : Str :=
  List.intercalate [',', ' '] l

/-- The body of `copy_files` after its validation call (source lines 97-106):
`file_path_list = src_list.copy()` allocates a fresh list object holding the
caller's elements; `__pop_none_file_paths__` then mutates only that copy; the
aggregated `FileNotFoundError` carries the comma-joined missing paths; the
final loop copies each remaining path into `dest_dir` under its base name. -/
def copy_files_body (fs : FS) (h : Heap) (srcAddr : Nat) (dest_dir : Str)
    (ignore_none_file : Bool) : Except PyError (FS × Heap) :=
  let h1 := h ++ [h.getD srcAddr []]
  let a1 := h.length
  let r := pop_none_file_paths fs (h1.getD a1 [])
  let h2 := h1.set a1 r.1
  if !r.2.isEmpty && !ignore_none_file then
    .error (.fileNotFound (joinComma r.2))
  else
    match copyLoop dest_dir fs (h2.getD a1 []) with
    | .error e => .error e
    | .ok fs2 => .ok (fs2, h2)

/-- `copy_files(src_list, dest_dir, ignore_none_file)` as written: the broken
validation first, then the body.  `srcAddr` is the caller's list object. -/
def copy_files (fs : FS) (h : Heap) (srcAddr : Nat) (dest_dir : Str)
    (ignore_none_file : Bool) : Except PyError (FS × Heap) :=
  match validate_path_dir fs dest_dir with
  | .error e => .error e
  | .ok _ => copy_files_body fs h srcAddr dest_dir ignore_none_file

/-- Modelled from the spec: `copy_files` with its directory validation
repaired as the spec's Design Note requires; the body is the source's. -/
def copy_files_fixed (fs : FS) (h : Heap) (srcAddr : Nat) (dest_dir : Str)
    (ignore_none_file : Bool) : Except PyError (FS × Heap) :=
  match validate_path_dir_fixed fs dest_dir with
  | .error e => .error e
  | .ok _ => copy_files_body fs h srcAddr dest_dir ignore_none_file

/-- `convert_file_charset(src_path, dest_path, src_encoding, dest_encoding)`:
text-read `src_path` under `src_encoding` (decode plus universal newlines),
write the text to `dest_path` under `dest_encoding`. -/
def convert_file_charset (codecs : Str → Codec) (fs : FS)
    (src_path dest_path src_encoding dest_encoding : Str) :
    Except PyError FS :=
  match pyOpenRead codecs fs src_path false (some src_encoding) with
  | .error e => .error e
  | .ok (.bytes _) => .error .typeError
  | .ok (.text t) => pyOpenWriteText codecs fs dest_path dest_encoding t

deriving instance DecidableEq for Except

/-- Joining a list of lines with the separator `c`: the left inverse used to
state that splitting loses no characters. -/
def joinLines (c : Char) : List Str → Str
  | [] => []
  | [l] => l
  | l :: ls => l ++ c :: joinLines c ls

theorem translate_cons_ne (c : Char) (rest : Str) (hc : c ≠ '\r') :
    translateNewlines (c :: rest) = c :: translateNewlines rest := by
  rw [translateNewlines.eq_def]
  split
  · simp_all
  · simp_all
  · simp_all
  · simp_all

theorem translate_no_cr (s : Str) : '\r' ∉ translateNewlines s := by
  induction s using translateNewlines.induct with
  | case1 => simp [translateNewlines]
  | case2 rest ih => simpa [translateNewlines] using ih
  | case3 rest h ih => simpa [translateNewlines] using ih
  | case4 c rest h1 h2 ih =>
    rw [translate_cons_ne c rest (fun hc => h2 hc)]
    simp only [List.mem_cons]
    rintro (hc | hm)
    · exact h2 hc.symm
    · exact ih hm

theorem translate_eq_self (s : Str) (h : '\r' ∉ s) : translateNewlines s = s := by
  induction s with
  | nil => rfl
  | cons c rest ih =>
    simp only [List.mem_cons] at h
    push_neg at h
    rw [translate_cons_ne c rest (fun hc => h.1 hc.symm), ih h.2]

theorem splitChar_ne_nil (c : Char) (s : Str) : splitChar c s ≠ [] := by
  induction s with
  | nil => simp [splitChar]
  | cons x xs ih =>
    simp only [splitChar]
    split
    · simp
    · split
      · simp
      · simp

theorem splitChar_not_mem (c : Char) (s : Str) : ∀ l ∈ splitChar c s, c ∉ l := by
  induction s with
  | nil =>
    intro l hl
    simp [splitChar] at hl
    simp [hl]
  | cons x xs ih =>
    intro l hl
    simp only [splitChar] at hl
    by_cases hx : x = c
    · rw [if_pos hx] at hl
      rcases List.mem_cons.mp hl with h | h
      · simp [h]
      · exact ih l h
    · rw [if_neg hx] at hl
      cases hsp : splitChar c xs with
      | nil => exact absurd hsp (splitChar_ne_nil c xs)
      | cons hd tl =>
        rw [hsp] at hl
        rcases List.mem_cons.mp hl with h | h
        · subst h
          intro hmem
          rcases List.mem_cons.mp hmem with h2 | h2
          · exact hx h2.symm
          · exact ih hd (by rw [hsp]; exact List.mem_cons_self _ _) h2
        · exact ih l (by rw [hsp]; exact List.mem_cons_of_mem _ h)

theorem splitChar_mem_mem (c : Char) (s : Str) :
    ∀ l ∈ splitChar c s, ∀ y ∈ l, y ∈ s := by
  induction s with
  | nil =>
    intro l hl y hy
    simp [splitChar] at hl
    simp [hl] at hy
  | cons x xs ih =>
    intro l hl y hy
    simp only [splitChar] at hl
    by_cases hx : x = c
    · rw [if_pos hx] at hl
      rcases List.mem_cons.mp hl with h | h
      · simp [h] at hy
      · exact List.mem_cons_of_mem _ (ih l h y hy)
    · rw [if_neg hx] at hl
      cases hsp : splitChar c xs with
      | nil => exact absurd hsp (splitChar_ne_nil c xs)
      | cons hd tl =>
        rw [hsp] at hl
        rcases List.mem_cons.mp hl with h | h
        · subst h
          rcases List.mem_cons.mp hy with h2 | h2
          · simp [h2]
          · exact List.mem_cons_of_mem _
              (ih hd (by rw [hsp]; exact List.mem_cons_self _ _) y h2)
        · exact List.mem_cons_of_mem _
            (ih l (by rw [hsp]; exact List.mem_cons_of_mem _ h) y hy)

theorem joinLines_splitChar (c : Char) (s : Str) :
    joinLines c (splitChar c s) = s := by
  induction s with
  | nil => rfl
  | cons x xs ih =>
    simp only [splitChar]
    by_cases hx : x = c
    · rw [if_pos hx]
      cases hsp : splitChar c xs with
      | nil => exact absurd hsp (splitChar_ne_nil c xs)
      | cons hd tl =>
        rw [hsp] at ih
        subst hx
        simp [joinLines, ih]
    · rw [if_neg hx]
      cases hsp : splitChar c xs with
      | nil => exact absurd hsp (splitChar_ne_nil c xs)
      | cons hd tl =>
        rw [hsp] at ih
        cases tl with
        | nil => simpa [joinLines] using ih
        | cons t1 t2 => simpa [joinLines] using ih

theorem matchOneStar_iff (a b n : Str) :
    matchOneStar a b n = true ↔
      a <+: n ∧ b <:+ n ∧ a.length + b.length ≤ n.length := by
  unfold matchOneStar
  rw [Bool.and_eq_true, List.isPrefixOf_iff_prefix, List.isSuffixOf_iff_suffix]
  constructor
  · rintro ⟨hp, hs⟩
    obtain ⟨t, ht⟩ := hp
    subst ht
    rw [List.drop_left] at hs
    refine ⟨List.prefix_append a t, hs.trans (List.suffix_append a t), ?_⟩
    have := hs.length_le
    simp only [List.length_append]
    omega
  · rintro ⟨hp, hs, hlen⟩
    refine ⟨hp, ?_⟩
    obtain ⟨u, hu⟩ := hs
    subst hu
    have hau : a.length ≤ u.length := by
      simp only [List.length_append] at hlen
      omega
    rw [List.drop_append_of_le_length hau]
    exact List.suffix_append _ _

theorem globMatchEntry_iff (a b n : Str) :
    globMatchEntry a b n = true ↔
      (a <+: n ∧ b <:+ n ∧ a.length + b.length ≤ n.length) ∧
      (a.head? = some '.' ∨ n.head? ≠ some '.') := by
  unfold globMatchEntry
  rw [Bool.and_eq_true, matchOneStar_iff]
  simp [Bool.or_eq_true, Bool.not_eq_true']

theorem getD_concat {α : Type} (l : List α) (x d : α) :
    (l ++ [x]).getD l.length d = x := by
  induction l with
  | nil => rfl
  | cons y ys ih => simp [List.getD_cons_succ, ih]

theorem set_concat {α : Type} (l : List α) (x y : α) :
    (l ++ [x]).set l.length y = l ++ [y] := by
  rw [List.set_append]
  simp

theorem pyEnumerate_succ (n : Nat) (l : List Str) :
    pyEnumerate (n + 1) l = (pyEnumerate n l).map (fun e => (e.1 + 1, e.2)) := by
  induction l generalizing n with
  | nil => rfl
  | cons x xs ih => simp [pyEnumerate, ih]

theorem noneFileIdx_cons (fs : FS) (x : Str) (xs : List Str) :
    noneFileIdx fs (x :: xs) =
      if isfile fs x then (noneFileIdx fs xs).map Nat.succ
      else 0 :: (noneFileIdx fs xs).map Nat.succ := by
  simp only [noneFileIdx, pyEnumerate, pyEnumerate_succ, List.filter_cons]
  by_cases hf : isfile fs x
  · simp [hf, List.filter_map, List.map_map, Function.comp_def]
  · simp [hf, List.filter_map, List.map_map, Function.comp_def]

theorem popLoop_append (l : List Str) (is1 is2 : List Nat) :
    popLoop l (is1 ++ is2) =
      ((popLoop (popLoop l is1).1 is2).1,
        (popLoop l is1).2 ++ (popLoop (popLoop l is1).1 is2).2) := by
  induction is1 generalizing l with
  | nil => simp [popLoop]
  | cons i is ih => simp [popLoop, ih]

theorem popLoop_map_succ (x : Str) (xs : List Str) (is : List Nat) :
    popLoop (x :: xs) (is.map Nat.succ) =
      (x :: (popLoop xs is).1, (popLoop xs is).2) := by
  induction is generalizing xs with
  | nil => simp [popLoop]
  | cons i is ih => simp [popLoop, List.eraseIdx_cons_succ, List.getD_cons_succ, ih]

theorem popLoop_noneFileIdx (fs : FS) (l : List Str) :
    popLoop l (noneFileIdx fs l).reverse =
      (l.filter (fun x => isfile fs x),
        (l.filter (fun x => !isfile fs x)).reverse) := by
  induction l with
  | nil => simp [noneFileIdx, pyEnumerate, popLoop]
  | cons x xs ih =>
    rw [noneFileIdx_cons]
    by_cases hf : isfile fs x
    · rw [if_pos hf, ← List.map_reverse, popLoop_map_succ, ih]
      simp [List.filter_cons, hf]
    · rw [if_neg hf, List.reverse_cons, ← List.map_reverse, popLoop_append,
        popLoop_map_succ, ih]
      simp [popLoop, List.filter_cons, hf]

/-- The index gymnastics of `__pop_none_file_paths__` amount to an
order-preserving partition: the mutated list keeps exactly the existing
files, the returned list is exactly the missing ones, each in input order. -/
theorem pop_none_file_paths_eq (fs : FS) (l : List Str) :
    pop_none_file_paths fs l =
      (l.filter (fun x => isfile fs x), l.filter (fun x => !isfile fs x)) := by
  simp [pop_none_file_paths, popLoop_noneFileIdx]

theorem copy_files_body_eq (fs : FS) (h : Heap) (a : Nat) (d : Str) (ign : Bool) :
    copy_files_body fs h a d ign =
      (if !((h.getD a []).filter (fun x => !isfile fs x)).isEmpty && !ign then
        .error (.fileNotFound (joinComma ((h.getD a []).filter (fun x => !isfile fs x))))
      else
        match copyLoop d fs ((h.getD a []).filter (fun x => isfile fs x)) with
        | .error e => .error e
        | .ok fs2 => .ok (fs2, h ++ [(h.getD a []).filter (fun x => isfile fs x)])) := by
  simp only [copy_files_body, getD_concat, pop_none_file_paths_eq, set_concat]

theorem lookupFile_eq_none (fs : FS) (p : Str) (h : isfile fs p = false) :
    lookupFile fs p = none := by
  cases hl : lookupFile fs p with
  | none => rfl
  | some v =>
    unfold isfile at h
    rw [hl] at h
    simp at h

theorem isdir_setFile (fs : FS) (p q : Str) (bs : List Nat) :
    isdir (setFile fs p bs) q = isdir fs q := rfl

theorem lookupFile_setFile_self (fs : FS) (p : Str) (bs : List Nat) :
    lookupFile (setFile fs p bs) p = some bs := by
  simp [lookupFile, setFile, List.find?_cons]

/-- Fixture: `/tmp/a.txt`, an existing one-byte file. -/
def pA : Str := "/tmp/a.txt".data

/-- Fixture: `/tmp/missing.txt`, a path with no file behind it. -/
def pMissing : Str := "/tmp/missing.txt".data

/-- Fixture: `/out`, an existing destination directory. -/
def pOut : Str := "/out".data

/-- Fixture file system with `/tmp/a.txt` and directories `/out`, `/tmp`. -/
def fsOut : FS := ⟨[(pA, [97])], [pOut, "/tmp".data]⟩

/-- Fixture for directory listing: `/d` holds the files `ab` and `.txt`. -/
def fsC1 : FS := ⟨[("/d/ab".data, []), ("/d/.txt".data, []), ("/d/afile.txt".data, [])], ["/d".data]⟩

/-- Fixture: `/f` stores the bytes of `a\r\nb`. -/
def fsC5 : FS := ⟨[("/f".data, "a\r\nb".data.map Char.toNat)], []⟩

/-- Fixture: `/f` stores the bytes of `a\nb\nc`. -/
def fsC5b : FS := ⟨[("/f".data, "a\nb\nc".data.map Char.toNat)], []⟩

/-- Fixture: `/j.json` stores the JSON text `1`. -/
def fsJson : FS := ⟨[("/j.json".data, "1".data.map Char.toNat)], []⟩

/-- A concrete `json.loads` instance for closed evaluations: accepts exactly
the JSON text `1`. -/
def jsonLoadsNat : PyContent → Except PyError Nat
  | .text t => if t = "1".data then .ok 1 else .error .jsonDecodeError
  | .bytes _ => .error .jsonDecodeError

/-- Fixture: `/src` stores the bytes of `a\r\nb`. -/
def fsC10 : FS := ⟨[("/src".data, "a\r\nb".data.map Char.toNat)], []⟩

/-- `fsC10` after the first conversion writes `/mid`. -/
def fsC10b : FS := setFile fsC10 "/mid".data ("a\nb".data.map Char.toNat)

/-- `fsC10b` after the second conversion writes `/dst`. -/
def fsC10c : FS := setFile fsC10b "/dst".data ("a\nb".data.map Char.toNat)

/-- The `shift_jis` encoding name. -/
def sSjis : Str := "shift_jis".data

/-- Fixture for the charset round trip on carriage-return-free text. -/
def fsC10w : FS := ⟨[("/s".data, "xy".data.map Char.toNat)], []⟩

/-- Claim C1, counterexample: with prefix `ab` and suffix `b` the name `ab`
begins with the prefix and ends with the suffix, yet `get_file_list` (the
glob of `ab*b`) returns nothing because the two occurrences would overlap;
with empty prefix and suffix `.txt` the hidden name `.txt` also satisfies the
claim's description but is not returned. -/
theorem c1_counterexample :
    get_file_list fsC1 "/d".data "ab".data "b".data = [] ∧
    ("ab".data <+: "ab".data ∧ "b".data <:+ "ab".data ∧
      isfile fsC1 "/d/ab".data = true ∧ isdir fsC1 "/d".data = true) ∧
    get_file_list fsC1 "/d".data "".data ".txt".data = ["/d/afile.txt".data] ∧
    (("".data : Str) <+: ".txt".data ∧ ".txt".data <:+ ".txt".data ∧
      isfile fsC1 "/d/.txt".data = true) ∧
    ((["/d/afile.txt".data] : List Str).contains "/d/.txt".data) = false := by
  decide

/-- Claim C1, amended: for literal affixes, `get_file_list(D, a, b)` (the
spec's `list_files(D, prefix = a, suffix = b)`) returns exactly the paths
`D/n` over the entries `n` of directory `D` such that `n` begins with `a`,
ends with `b`, the two occurrences do not overlap (`|a| + |b| ≤ |n|`), and
`n` is not a hidden name unless `a` itself starts with a dot; it returns the
empty list when `D` is not an existing directory. -/
theorem c1_amended (fs : FS) (d a b : Str)
    (_hlit : ∀ c ∈ a ++ b, c ≠ '*' ∧ c ≠ '?' ∧ c ≠ '[' ∧ c ≠ '/') :
    (isdir fs d = false → get_file_list fs d a b = []) ∧
    (∀ p, p ∈ get_file_list fs d a b ↔
      isdir fs d = true ∧ ∃ n ∈ listdir fs d,
        p = d ++ [ '/' ] ++ n ∧ a <+: n ∧ b <:+ n ∧
        a.length + b.length ≤ n.length ∧
        (a.head? = some '.' ∨ n.head? ≠ some '.')) := by
  constructor
  · intro hd
    simp [get_file_list, hd]
  · intro p
    by_cases hd : isdir fs d
    · simp only [get_file_list, hd, if_true, List.mem_map, List.mem_filter,
        globMatchEntry_iff, true_and]
      constructor
      · rintro ⟨n, ⟨hn, ⟨hp, hs, hl⟩, hh⟩, rfl⟩
        exact ⟨n, hn, rfl, hp, hs, hl, hh⟩
      · rintro ⟨n, hn, rfl, hp, hs, hl, hh⟩
        exact ⟨n, ⟨hn, ⟨hp, hs, hl⟩, hh⟩, rfl⟩
    · rw [Bool.not_eq_true] at hd
      simp [get_file_list, hd]

/-- Claim C1, witness for the amended theorem at a concrete directory. -/
theorem c1_amended_witness :
    (∀ c ∈ ("a".data ++ ".txt".data : Str), c ≠ '*' ∧ c ≠ '?' ∧ c ≠ '[' ∧ c ≠ '/') ∧
    ((isdir fsC1 "/d".data = false →
        get_file_list fsC1 "/d".data "a".data ".txt".data = []) ∧
      (∀ p, p ∈ get_file_list fsC1 "/d".data "a".data ".txt".data ↔
        isdir fsC1 "/d".data = true ∧ ∃ n ∈ listdir fsC1 "/d".data,
          p = "/d".data ++ [ '/' ] ++ n ∧ "a".data <+: n ∧ ".txt".data <:+ n ∧
          ("a".data : Str).length + (".txt".data : Str).length ≤ n.length ∧
          (("a".data : Str).head? = some '.' ∨ n.head? ≠ some '.'))) :=
  ⟨by decide, c1_amended fsC1 "/d".data "a".data ".txt".data (by decide)⟩

/-- Claim C2: the claim says an existing `dest_dir` passes validation and the
copy proceeds; in the source `__validate_path_dir__` tests
`os.path.isdir(str)` — the builtin `str` class instead of the path — so every
call raises `TypeError`, also for an existing directory. -/
theorem c2_eval :
    isdir fsOut pOut = true ∧
    copy_files fsOut [[pA]] 0 pOut false = .error .typeError ∧
    ((PyError.typeError == PyError.fileNotFound pOut) : Bool) = false := by
  decide

/-- Claim C3: on a list with one existing and one missing path and an
existing destination directory, the claim demands `NotFoundError` listing
`/tmp/missing.txt`; the code instead dies with the validation `TypeError`
before the missing-path check runs. -/
theorem c3_eval :
    isfile fsOut pA = true ∧ isfile fsOut pMissing = false ∧
    isdir fsOut pOut = true ∧
    copy_files fsOut [[pA, pMissing]] 0 pOut false = .error .typeError ∧
    ((PyError.typeError == PyError.fileNotFound pMissing) : Bool) = false := by
  decide

/-- Claim C4: with `ignore_none_file = true` the claim demands a silent
partial copy; the code again raises the validation `TypeError` and copies
nothing. -/
theorem c4_eval :
    copy_files fsOut [[pA, pMissing]] 0 pOut true = .error .typeError := by
  decide

/-- The validation bug hits every call: `copy_files` never returns
successfully, whatever the arguments. -/
theorem copy_files_never_ok (fs : FS) (h : Heap) (a : Nat) (d : Str)
    (ign : Bool) : copy_files fs h a d ign = .error .typeError := rfl

/-- With the validation repaired as the spec mandates, the rest of
`copy_files` behaves exactly as claimed: order-preserving partition, either
an aggregated comma-joined `FileNotFoundError` or a copy of exactly the
existing entries. -/
theorem copy_files_fixed_eq (fs : FS) (hp : Heap) (a : Nat) (d : Str)
    (ign : Bool) (hd : isdir fs d = true) :
    copy_files_fixed fs hp a d ign =
      (if !((hp.getD a []).filter (fun x => !isfile fs x)).isEmpty && !ign then
        .error (.fileNotFound (joinComma ((hp.getD a []).filter (fun x => !isfile fs x))))
      else
        match copyLoop d fs ((hp.getD a []).filter (fun x => isfile fs x)) with
        | .error e => .error e
        | .ok fs2 => .ok (fs2, hp ++ [(hp.getD a []).filter (fun x => isfile fs x)])) := by
  simp only [copy_files_fixed, validate_path_dir_fixed, os_path_isdir, hd, if_true]
  exact copy_files_body_eq fs hp a d ign

/-- With the repaired validation, the aggregated error of the missing-path
case carries exactly the comma-joined missing paths and no copy happens. -/
theorem copy_files_fixed_missing_eval :
    copy_files_fixed fsOut [[pA, pMissing]] 0 pOut false =
      .error (.fileNotFound pMissing) := by
  decide

/-- With the repaired validation and `ignore_none_file = true`, exactly the
existing entry is copied to `/out/a.txt`. -/
theorem copy_files_fixed_ignore_eval :
    copy_files_fixed fsOut [[pA, pMissing]] 0 pOut true =
      .ok (setFile fsOut "/out/a.txt".data [97], [[pA, pMissing], [pA]]) ∧
    lookupFile (setFile fsOut "/out/a.txt".data [97]) "/out/a.txt".data =
      some [97] := by
  decide

/-- Claim C5, counterexample: the file stores bytes decoding to `a\r\nb`, the
claim demands `["a\r", "b"]`, but text-mode reading first applies
universal-newline translation, so `read_file_lines` returns `["a", "b"]`. -/
theorem c5_counterexample :
    lookupFile fsC5 "/f".data = some ("a\r\nb".data.map Char.toNat) ∧
    asciiCodec.dec ("a\r\nb".data.map Char.toNat) = some "a\r\nb".data ∧
    read_file_lines asciiCodecs fsC5 "/f".data sUtf8 = .ok ["a".data, "b".data] ∧
    ((["a".data, "b".data] == ["a\r".data, "b".data] : Bool)) = false := by
  decide

/-- Claim C5, amended: `read_file_lines` splits the universal-newline
translation of the decoded text on `\n` alone: `\r\n` and lone `\r` have
already become `\n` by the time of the split, so carriage returns are
normalised away rather than preserved; the split itself introduces or drops
nothing (the pieces contain no `\n` and no `\r`, and joining them with `\n`
restores the translated text). -/
theorem c5_amended (codecs : Str → Codec) (fs : FS) (p e : Str)
    (bs : List Nat) (t : Str)
    (hdir : isdir fs p = false) (hf : lookupFile fs p = some bs)
    (hdec : (codecs e).dec bs = some t) :
    read_file_lines codecs fs p e = .ok (splitChar '\n' (translateNewlines t)) ∧
    (∀ l ∈ splitChar '\n' (translateNewlines t), '\n' ∉ l ∧ '\r' ∉ l) ∧
    joinLines '\n' (splitChar '\n' (translateNewlines t)) = translateNewlines t := by
  refine ⟨?_, ?_, joinLines_splitChar '\n' (translateNewlines t)⟩
  · simp [read_file_lines, read_file, pyOpenRead, hdir, hf, hdec, pySplitNlStep]
  · intro l hl
    refine ⟨splitChar_not_mem '\n' (translateNewlines t) l hl, fun hcr => ?_⟩
    exact translate_no_cr t (splitChar_mem_mem '\n' (translateNewlines t) l hl '\r' hcr)

/-- Claim C5, witness for the amended theorem on the file `a\nb\nc`. -/
theorem c5_amended_witness :
    read_file_lines asciiCodecs fsC5b "/f".data sUtf8 =
      .ok (splitChar '\n' (translateNewlines "a\nb\nc".data)) ∧
    (∀ l ∈ splitChar '\n' (translateNewlines "a\nb\nc".data), '\n' ∉ l ∧ '\r' ∉ l) ∧
    joinLines '\n' (splitChar '\n' (translateNewlines "a\nb\nc".data)) =
      translateNewlines "a\nb\nc".data :=
  c5_amended asciiCodecs fsC5b "/f".data sUtf8 ("a\nb\nc".data.map Char.toNat)
    "a\nb\nc".data (by decide) (by decide) (by decide)

/-- Claim C6: the claim says `read_file(path, encoding, is_binary = true)`
returns the byte content; the source forwards `encoding=` to `open` in binary
mode as well, which raises `ValueError`, so no binary read ever returns (the
text-mode half works). -/
theorem c6_eval :
    isfile fsOut pA = true ∧
    read_file asciiCodecs fsOut pA sUtf8 true = .error .valueError ∧
    read_file asciiCodecs fsOut pA sUtf8 false = .ok (.text "a".data) := by
  decide

/-- The binary-mode failure is unconditional: every `read_file` call with
`is_binary = true` raises `ValueError`, whatever the file system, path and
encoding. -/
theorem read_file_binary_always_valueError (codecs : Str → Codec) (fs : FS)
    (p e : Str) : read_file codecs fs p e true = .error .valueError := rfl

/-- Claim C7: `copy_file(src, dest)` rewrites any `dest` with a non-empty
base name to `dest/basename(src)` before the copy, so `/tmp/a.txt` copied to
`/out` lands at `/out/a.txt`; a missing `src` raises
`FileNotFoundError(src)`. -/
theorem c7 :
    (∀ fs src dest, (basename dest).isEmpty = false →
      copy_file fs src dest = pyCopyfile fs src (joinPath dest (basename src))) ∧
    (∀ fs src dest, isfile fs src = false → isdir fs src = false →
      copy_file fs src dest = .error (.fileNotFound src)) ∧
    copy_file fsOut pA pOut = .ok (setFile fsOut "/out/a.txt".data [97]) ∧
    lookupFile (setFile fsOut "/out/a.txt".data [97]) "/out/a.txt".data =
      some [97] := by
  refine ⟨?_, ?_, by decide, by decide⟩
  · intro fs src dest h
    simp [copy_file, h]
  · intro fs src dest hf hd
    have hl : lookupFile fs src = none := lookupFile_eq_none fs src hf
    simp [copy_file, pyCopyfile, hf, hd, hl]

/-- Claim C7, witness at the concrete copy of `/tmp/a.txt` to `/out`. -/
theorem c7_witness :
    copy_file fsOut pA pOut = pyCopyfile fsOut pA (joinPath pOut (basename pA)) ∧
    copy_file fsOut pMissing pOut = .error (.fileNotFound pMissing) :=
  ⟨c7.1 fsOut pA pOut (by decide), c7.2.1 fsOut pMissing pOut (by decide) (by decide)⟩

/-- Claim C8: `read_json_file` is definitionally the composition of
`read_file` (text mode) with `json.loads`: a missing file surfaces as
`FileNotFoundError(path)`, a parse failure as the parse error, and on a
successfully read and parsed content the parsed value is returned
unchanged. -/
theorem c8 {J : Type} (jsonLoads : PyContent → Except PyError J)
    (codecs : Str → Codec) (fs : FS) (p e : Str) :
    (read_json_file jsonLoads codecs fs p e =
      match read_file codecs fs p e false with
      | .error err => .error err
      | .ok c => jsonLoads c) ∧
    (isdir fs p = false → lookupFile fs p = none →
      read_json_file jsonLoads codecs fs p e = .error (.fileNotFound p)) ∧
    (∀ c v, read_file codecs fs p e false = .ok c → jsonLoads c = .ok v →
      read_json_file jsonLoads codecs fs p e = .ok v) ∧
    (∀ c, read_file codecs fs p e false = .ok c →
      jsonLoads c = .error .jsonDecodeError →
      read_json_file jsonLoads codecs fs p e = .error .jsonDecodeError) := by
  refine ⟨rfl, ?_, ?_, ?_⟩
  · intro hd hl
    simp [read_json_file, read_file, pyOpenRead, hd, hl]
  · intro c v hr hj
    simp [read_json_file, hr, hj]
  · intro c hr hj
    simp [read_json_file, hr, hj]

/-- Claim C8, witness with a concrete `json.loads` instance: a missing file
gives `FileNotFoundError`, and the JSON file holding `1` parses to `1`. -/
theorem c8_witness :
    read_json_file jsonLoadsNat asciiCodecs fsJson "/nope".data sUtf8 =
      .error (.fileNotFound "/nope".data) ∧
    read_json_file jsonLoadsNat asciiCodecs fsJson "/j.json".data sUtf8 = .ok 1 :=
  ⟨(c8 jsonLoadsNat asciiCodecs fsJson "/nope".data sUtf8).2.1 (by decide) (by decide),
   (c8 jsonLoadsNat asciiCodecs fsJson "/j.json".data sUtf8).2.2.1
     (.text "1".data) 1 (by decide) (by decide)⟩

/-- Claim C9, counterexample: the source's line 97 copies `src_list` before
filtering, so after a completed batch copy (validation repaired, which is the
only way any call completes) the caller's list object still contains the
missing path — it is not mutated in place as claimed; and the deployed
`copy_files` never even reaches the filtering. -/
theorem c9_counterexample :
    isfile fsOut pMissing = false ∧
    copy_files_fixed fsOut [[pMissing, pA]] 0 pOut true =
      .ok (setFile fsOut "/out/a.txt".data [97], [[pMissing, pA], [pA]]) ∧
    ([[pMissing, pA], [pA]] : Heap).getD 0 [] = [pMissing, pA] ∧
    (([pMissing, pA] : List Str).contains pMissing) = true ∧
    copy_files fsOut [[pMissing, pA]] 0 pOut true = .error .typeError := by
  decide

/-- Claim C9, amended: `copy_files` makes a shallow copy of `src_list` and
removes the missing entries only from that copy; every list object the caller
held before the call is unchanged afterwards.  The deployed `copy_files`
itself always dies in validation with `TypeError` and so also never mutates
anything. -/
theorem c9_amended :
    (∀ fs hp a d ign fs2 h2, copy_files_fixed fs hp a d ign = .ok (fs2, h2) →
      h2.take hp.length = hp ∧ (a < hp.length → h2.getD a [] = hp.getD a [])) ∧
    (∀ fs hp a d ign,
      copy_files fs (hp : Heap) a d ign = .error PyError.typeError) := by
  constructor
  · intro fs hp a d ign fs2 h2 hok
    by_cases hd : isdir fs d
    · simp only [copy_files_fixed, validate_path_dir_fixed, os_path_isdir, hd,
        if_true] at hok
      rw [copy_files_body_eq] at hok
      split at hok
      · exact absurd hok (by simp)
      · split at hok
        · exact absurd hok (by simp)
        · simp only [Except.ok.injEq, Prod.mk.injEq] at hok
          obtain ⟨-, hh⟩ := hok
          subst hh
          refine ⟨List.take_left hp _, fun ha => ?_⟩
          exact List.getD_append hp _ [] a ha
    · rw [Bool.not_eq_true] at hd
      simp [copy_files_fixed, validate_path_dir_fixed, os_path_isdir, hd] at hok
  · intro fs hp a d ign
    rfl

/-- Claim C9, witness for the amended theorem at a completed concrete call. -/
theorem c9_amended_witness :
    ([[pMissing, pA], [pA]] : Heap).take ([[pMissing, pA]] : Heap).length =
      [[pMissing, pA]] ∧
    (0 < ([[pMissing, pA]] : Heap).length →
      ([[pMissing, pA], [pA]] : Heap).getD 0 [] =
        ([[pMissing, pA]] : Heap).getD 0 []) :=
  c9_amended.1 fsOut [[pMissing, pA]] 0 pOut true
    (setFile fsOut "/out/a.txt".data [97]) [[pMissing, pA], [pA]] (by decide)

/-- Claim C10, counterexample: the text `a\r\nb` is representable in both
encodings (the ASCII instance is exactly how `utf-8` and `shift_jis` act on
it), yet converting to Shift-JIS and back yields the file text `a\nb` — the
text-mode read translated the Windows line ending, so the round trip is not
the identity. -/
theorem c10_counterexample :
    asciiCodec.dec ("a\r\nb".data.map Char.toNat) = some "a\r\nb".data ∧
    asciiCodec.enc "a\r\nb".data = some ("a\r\nb".data.map Char.toNat) ∧
    convert_file_charset asciiCodecs fsC10 "/src".data "/mid".data sUtf8 sSjis =
      .ok fsC10b ∧
    convert_file_charset asciiCodecs fsC10b "/mid".data "/dst".data sSjis sUtf8 =
      .ok fsC10c ∧
    lookupFile fsC10c "/dst".data = some ("a\nb".data.map Char.toNat) ∧
    asciiCodec.dec ("a\nb".data.map Char.toNat) = some "a\nb".data ∧
    (("a\nb".data == "a\r\nb".data : Bool)) = false := by
  decide

/-- Claim C10, amended: the double conversion writes back the
universal-newline translation of the original text (each conversion's
text-mode read translates, and translated text is a fixed point); the round
trip is the identity exactly on carriage-return-free text, given that both
codecs round-trip the translated text. -/
theorem c10_amended (codecs : Str → Codec) (fs : FS) (p1 p2 p3 eU eS : Str)
    (bs bs1 bs2 : List Nat) (t : Str)
    (h1 : isdir fs p1 = false) (h2 : isdir fs p2 = false)
    (h3 : isdir fs p3 = false)
    (hf : lookupFile fs p1 = some bs)
    (hdec : (codecs eU).dec bs = some t)
    (hencS : (codecs eS).enc (translateNewlines t) = some bs1)
    (hdecS : (codecs eS).dec bs1 = some (translateNewlines t))
    (hencU : (codecs eU).enc (translateNewlines t) = some bs2)
    (hdecU : (codecs eU).dec bs2 = some (translateNewlines t)) :
    convert_file_charset codecs fs p1 p2 eU eS = .ok (setFile fs p2 bs1) ∧
    convert_file_charset codecs (setFile fs p2 bs1) p2 p3 eS eU =
      .ok (setFile (setFile fs p2 bs1) p3 bs2) ∧
    lookupFile (setFile (setFile fs p2 bs1) p3 bs2) p3 = some bs2 ∧
    (codecs eU).dec bs2 = some (translateNewlines t) ∧
    ('\r' ∉ t → translateNewlines t = t) := by
  have htt : translateNewlines (translateNewlines t) = translateNewlines t :=
    translate_eq_self (translateNewlines t) (translate_no_cr t)
  refine ⟨?_, ?_, lookupFile_setFile_self _ _ _, hdecU,
    fun hcr => translate_eq_self t hcr⟩
  · simp [convert_file_charset, pyOpenRead, h1, h2, hf, hdec, hencS,
      pyOpenWriteText]
  · simp [convert_file_charset, pyOpenRead, pyOpenWriteText, isdir_setFile,
      h2, h3, lookupFile_setFile_self, hdecS, htt, hencU]

/-- Claim C10, witness for the amended theorem on the text `xy`, which has no
carriage return and survives the round trip unchanged. -/
theorem c10_amended_witness :
    convert_file_charset asciiCodecs fsC10w "/s".data "/m".data sUtf8 sSjis =
      .ok (setFile fsC10w "/m".data ("xy".data.map Char.toNat)) ∧
    convert_file_charset asciiCodecs (setFile fsC10w "/m".data ("xy".data.map Char.toNat))
        "/m".data "/d".data sSjis sUtf8 =
      .ok (setFile (setFile fsC10w "/m".data ("xy".data.map Char.toNat))
        "/d".data ("xy".data.map Char.toNat)) ∧
    lookupFile (setFile (setFile fsC10w "/m".data ("xy".data.map Char.toNat))
        "/d".data ("xy".data.map Char.toNat)) "/d".data =
      some ("xy".data.map Char.toNat) ∧
    (asciiCodecs sUtf8).dec ("xy".data.map Char.toNat) =
      some (translateNewlines "xy".data) ∧
    ('\r' ∉ "xy".data → translateNewlines "xy".data = "xy".data) :=
  c10_amended asciiCodecs fsC10w "/s".data "/m".data "/d".data sUtf8 sSjis
    ("xy".data.map Char.toNat) ("xy".data.map Char.toNat) ("xy".data.map Char.toNat)
    "xy".data (by decide) (by decide) (by decide) (by decide) (by decide)
    (by decide) (by decide) (by decide) (by decide)

end FileOperation
